import Mathlib

/-!
# Verification of the price-list file browser

A shallow embedding of the repository's core logic:

* `src/services/googleDriveService.ts` — the listing client
  (`getFilesFromFolder`, `getFileViewUrl`, `getFileDownloadUrl`);
* `src/components/GoogleDrivePriceListManager.tsx` — record normalization
  (`loadFiles` / `processedFiles`), navigation state (`navigateToFolder`,
  `navigateToBreadcrumb`), sorting (`sortFiles`), filtering
  (`filteredAndSortedFiles`) and size formatting (`formatFileSize`).

Machine numbers are modelled as `Nat`/`Int`; the JavaScript values computed
by `formatFileSize` all have power-of-two denominators and so are exact IEEE
doubles for realistic byte counts, which lets the formatter be modelled with
exact natural-number arithmetic.  `Array.prototype.sort`, which ECMAScript
requires to be a stable sort, is modelled with `List.insertionSort` (stable);
any two stable sorts over the same total preorder agree, so the model output
equals the engine's output whenever the comparator is consistent.
The Turkish-locale string collation `localeCompare(·, ·, 'tr')` is an ICU
service external to the repository; the definitions are parametrized by an
arbitrary comparison function `tr : String → String → Int` standing for it,
and the theorems assume only the consistency properties ECMA-402 guarantees
for any collator.
-/

/-- Raw record shape returned by the Drive listing endpoint
(`DriveFile` in `googleDriveService.ts`).  `size` is optional in the source
(`size?: string`).  `thumbnailLink` is optional and never used downstream. -/
structure DriveFile where
  id : String
  name : String
  mimeType : String
  size : Option String
  modifiedTime : String
  webViewLink : String
  webContentLink : String
  thumbnailLink : Option String
deriving DecidableEq, Repr

/-- The statically configured root folder identifier
(`FOLDER_ID` in `googleDriveService.ts`). -/
def FOLDER_ID : String := "1T_ahaYDTMRof2SZgzJPaV0BiRQQRpi2f"

/-- Mime-type filter applied by `getFilesFromFolder` to the response's
`files` array: the three supported document MIME types plus the folder
marker (`supportedFiles` filter, `googleDriveService.ts` lines 44-49). -/
def isSupportedFile (file : DriveFile) : Bool :=
  file.mimeType = "application/pdf" ||
  file.mimeType = "application/vnd.openxmlformats-officedocument.spreadsheetml.sheet" ||
  file.mimeType = "application/vnd.ms-excel" ||
  file.mimeType = "application/vnd.google-apps.folder"

/-- The local filtering step of `getFilesFromFolder`: given the `files`
array of a successful response, keep exactly the supported records. -/
def getFilesFromFolder_result (responseFiles : List DriveFile) : List DriveFile :=
  responseFiles.filter isSupportedFile

/-- The parent-folder identifier interpolated into the request URL's
`q='<id>'+in+parents` clause by `getFilesFromFolder`.  In the source the
method takes *no* folder parameter and always interpolates the constant
`FOLDER_ID`; the component's `loadFiles` nevertheless calls it with
`folderId` as an argument, which is therefore ignored. -/
def getFilesFromFolder_queriedParent : String := FOLDER_ID

/-- The parent folder actually queried when the component's
`loadFiles(folderId)` runs: `loadFiles` forwards `folderId` to
`driveService.getFilesFromFolder(folderId)`, but the service method's
signature has no parameter, so the argument is dropped. -/
def loadFiles_queriedParent (_folderId : Option String) : String :=
  getFilesFromFolder_queriedParent

/-- Modelled from the spec: the contract `listFolder(folderId: optional
identifier)` of §4.1/§6, whose request is parameterized by the
parent-folder identifier — the statically configured root when the
identifier is empty or absent, and the given folder otherwise.  The
repository's service method lacks the parameter, so this is the spec's
intended queried parent, used to exhibit the divergence. -/
def listFolder_spec_queriedParent (folderId : Option String) : String :=
  match folderId with
  | none => FOLDER_ID
  | some "" => FOLDER_ID
  | some id => id

/-- `getFileViewUrl` of `googleDriveService.ts`. -/
def getFileViewUrl (fileId : String) (mimeType : String) : String :=
  if mimeType = "application/vnd.google-apps.folder" then
    "https://drive.google.com/drive/folders/" ++ fileId
  else if mimeType = "application/pdf" then
    "https://drive.google.com/file/d/" ++ fileId ++ "/preview"
  else
    "https://docs.google.com/spreadsheets/d/" ++ fileId ++ "/edit?usp=sharing"

/-- `getFileDownloadUrl` of `googleDriveService.ts`. -/
def getFileDownloadUrl (fileId : String) : String :=
  "https://drive.google.com/uc?export=download&id=" ++ fileId

/-- Floor of the base-1024 logarithm, computed with structural fuel so that
it evaluates by kernel reduction.  Models the JavaScript
`Math.floor(Math.log(bytes) / Math.log(1024))` of `formatFileSize` for
positive integer input (exact for all inputs whose logarithm ratio is not
perturbed by rounding, in particular all inputs below 2^53). -/
def logFloorAux : Nat → Nat → Nat
  | 0, _ => 0
  | fuel + 1, n => if n < 1024 then 0 else logFloorAux fuel (n / 1024) + 1

/-- Entry point for `logFloorAux`: fuel `n` strictly dominates the
recursion depth `⌊log₁₀₂₄ n⌋`. -/
def logFloor1024 (n : Nat) : Nat := logFloorAux n n

/-- The unit table `sizes` of `formatFileSize`. -/
def sizes : List String := ["Bytes", "KB", "MB", "GB"]

/-- Decimal rendering of `hundredths / 100` with trailing zeros stripped:
the composition `parseFloat((x).toFixed(2)) + ''` in `formatFileSize`.
`toFixed(2)` yields the hundredths digits; `parseFloat` converts back to a
number, and JavaScript number-to-string printing drops a trailing
fractional `0` or a whole `.00`. -/
def jsFixed2String (hundredths : Nat) : String :=
  let q := hundredths / 100
  let r := hundredths % 100
  if r = 0 then toString q
  else if r % 10 = 0 then toString q ++ "." ++ toString (r / 10)
  else if r < 10 then toString q ++ ".0" ++ toString r
  else toString q ++ "." ++ toString r

/-- `formatFileSize` of `GoogleDrivePriceListManager.tsx` (lines 141-147) on
a nonnegative integer byte count.  `i` is the floored base-1024 logarithm;
`(bytes / 1024^i).toFixed(2)` rounds the exact scaled value to the nearest
hundredth (ties up), here computed as `⌊(200·bytes + 1024^i) / (2·1024^i)⌋`
— exact because `bytes / 1024^i` has a power-of-two denominator and is
therefore an exact IEEE double for `bytes < 2^53`.  An index beyond the
`sizes` table renders as JavaScript `undefined`. -/
def formatFileSize (bytes : Nat) : String :=
  if bytes = 0 then "0 Bytes"
  else
    let i := logFloor1024 bytes
    let hundredths := (200 * bytes + 1024 ^ i) / (2 * 1024 ^ i)
    jsFixed2String hundredths ++ " " ++ sizes.getD i "undefined"

/-- Longest leading run of decimal digits of a character list, as a number;
`none` when there is no leading digit (the `NaN` outcome). -/
def leadingDigits (cs : List Char) : Option Nat :=
  let ds := cs.takeWhile (·.isDigit)
  if ds.isEmpty then none
  else some (ds.foldl (fun acc c => acc * 10 + (c.toNat - '0'.toNat)) 0)

/-- Model of the ECMAScript `parseInt(s)` applied by the normalizer to the
raw `size` string: skip leading whitespace, read an optional sign and then
the longest decimal-digit prefix; `none` models the `NaN` result.  (The
automatic hexadecimal `0x` radix detection of `parseInt` is not modelled;
Drive size fields are plain decimal digit strings.) -/
def parseIntJS (s : String) : Option Int :=
  let cs := s.toList.dropWhile (·.isWhitespace)
  match cs with
  | '-' :: rest => (leadingDigits rest).map (fun n => -(n : Int))
  | '+' :: rest => (leadingDigits rest).map (fun n => (n : Int))
  | _ => (leadingDigits cs).map (fun n => (n : Int))

/-- `formatFileSize` as reached from the normalizer, on the result of
`parseInt`: `none` (NaN) propagates through `Math.log`, the array index and
the string concatenation to the literal `"NaN undefined"`; a negative input
makes `Math.log` return NaN with the same outcome; `0` and positive values
take the real branches of `formatFileSize`. -/
def formatFileSizeJS : Option Int → String
  | none => "NaN undefined"
  | some b => if b = 0 then "0 Bytes"
              else if b < 0 then "NaN undefined"
              else formatFileSize b.toNat

/-- JavaScript truthiness of the optional `size` string in
`file.size ? … : …`: `undefined` and the empty string are falsy. -/
def jsTruthy : Option String → Bool
  | none => false
  | some s => s ≠ ""

/-- The normalized kind `'pdf' | 'excel' | 'folder'` of `PriceListFile`. -/
inductive FileType where
  | pdf
  | excel
  | folder
deriving DecidableEq, Repr

/-- The normalized client-side model `PriceListFile` of
`GoogleDrivePriceListManager.tsx`.  `modifiedTime` holds the epoch
milliseconds produced by `new Date(raw.modifiedTime).getTime()`. -/
structure PriceListFile where
  id : String
  name : String
  type : FileType
  size : String
  modifiedTime : Int
  viewUrl : String
  downloadUrl : String
  isFolder : Bool
deriving DecidableEq, Repr

/-- One step of the `processedFiles` map inside `loadFiles`
(`GoogleDrivePriceListManager.tsx` lines 42-60).  The browser's
`new Date(string).getTime()` parser is external to the repository and is
passed in as `parseDate`.  A total function: every branch produces a
string, so no raw record can abort the batch. -/
def processFile (parseDate : String → Int) (file : DriveFile) : PriceListFile :=
  let isFolder := file.mimeType = "application/vnd.google-apps.folder"
  let fileType : FileType :=
    if isFolder then .folder
    else if file.mimeType = "application/pdf" then .pdf else .excel
  ⟨file.id,
   file.name,
   fileType,
   (if jsTruthy file.size then formatFileSizeJS (parseIntJS (file.size.getD ""))
    else if isFolder then "-" else "Bilinmiyor"),
   parseDate file.modifiedTime,
   getFileViewUrl file.id file.mimeType,
   getFileDownloadUrl file.id,
   isFolder⟩

/-- The whole `processedFiles` batch: `driveFiles.map(...)`. -/
def processFiles (parseDate : String → Int) (driveFiles : List DriveFile) :
    List PriceListFile :=
  driveFiles.map (processFile parseDate)

/-- `BreadcrumbItem` of `GoogleDrivePriceListManager.tsx`. -/
structure BreadcrumbItem where
  id : String
  name : String
deriving DecidableEq, Repr

/-- The component's navigation state: `currentFolderId` (empty string =
root) and the `breadcrumbs` trail. -/
structure NavState where
  currentFolderId : String
  breadcrumbs : List BreadcrumbItem
deriving DecidableEq, Repr

/-- `navigateToFolder(folderId, folderName)` (lines 85-97):
`setCurrentFolderId(folderId)` unconditionally; with the empty id the
breadcrumbs are cleared, otherwise `{id, name}` is appended. -/
def navigateToFolder (s : NavState) (folderId folderName : String) : NavState :=
  if folderId = "" then ⟨folderId, []⟩
  else ⟨folderId, s.breadcrumbs ++ [⟨folderId, folderName⟩]⟩

/-- `navigateToBreadcrumb(index)` (lines 99-110).  `index = -1` resets to
the root.  Otherwise the source reads `breadcrumbs[index].id`: when the
index is outside `[0, length)` the JavaScript indexing yields `undefined`
and the `.id` access throws a `TypeError` *before* either state setter
runs; the `none` result models that exception (no state field written).
In range, the current folder becomes that crumb's id and the trail is
truncated with `slice(0, index + 1)`. -/
def navigateToBreadcrumb (s : NavState) (index : Int) : Option NavState :=
  if index = -1 then some ⟨"", []⟩
  else
    match (if 0 ≤ index then s.breadcrumbs[index.toNat]? else none) with
    | none => none
    | some target => some ⟨target.id, s.breadcrumbs.take (index.toNat + 1)⟩

/-- The navigation states the component can actually enter: the initial
root state, `navigateToFolder` descents with a non-empty folder id (the
only ids `handleFileClick` passes), `navigateToFolder` with the empty id
(the return-to-root branch), and any non-throwing `navigateToBreadcrumb`. -/
inductive ReachableNav : NavState → Prop where
  | init : ReachableNav ⟨"", []⟩
  | descend (s : NavState) (id name : String) :
      ReachableNav s → id ≠ "" → ReachableNav (navigateToFolder s id name)
  | toRoot (s : NavState) (name : String) :
      ReachableNav s → ReachableNav (navigateToFolder s "" name)
  | jump (s : NavState) (i : Int) (t : NavState) :
      ReachableNav s → navigateToBreadcrumb s i = some t → ReachableNav t

/-- The navigation invariant stated by the spec (§3 `NavigationState` /
`BreadcrumbEntry`): the trail is empty exactly at the root, and a
non-empty trail ends in the current folder's id. -/
def NavInv (s : NavState) : Prop :=
  (s.breadcrumbs = [] ↔ s.currentFolderId = "") ∧
  (∀ b ∈ s.breadcrumbs.getLast?, b.id = s.currentFolderId)

/-- Strengthening of `NavInv` that actually is inductive: additionally, no
breadcrumb records an empty folder id (descents only ever append non-empty
ids). -/
def NavInvStrong (s : NavState) : Prop :=
  NavInv s ∧ ∀ b ∈ s.breadcrumbs, b.id ≠ ""

/-- The sort selector `SortOption` of `GoogleDrivePriceListManager.tsx`. -/
inductive SortOption where
  | nameAsc
  | nameDesc
  | dateAsc
  | dateDesc
deriving DecidableEq, Repr

/-- The comparator closure passed to `Array.prototype.sort` by `sortFiles`
(lines 112-131): folders strictly first, then the selected key.  `tr`
stands for the external Turkish collation `a.localeCompare(b, 'tr')`. -/
def compareFiles (tr : String → String → Int) (o : SortOption)
    (a b : PriceListFile) : Int :=
  if a.isFolder && !b.isFolder then -1
  else if !a.isFolder && b.isFolder then 1
  else
    match o with
    | .nameAsc => tr a.name b.name
    | .nameDesc => tr b.name a.name
    | .dateAsc => a.modifiedTime - b.modifiedTime
    | .dateDesc => b.modifiedTime - a.modifiedTime

/-- `sortFiles` (lines 112-131): `[...files].sort(comparator)`.
ECMAScript requires `Array.prototype.sort` to be stable, and all stable
sorts of the same list under the same consistent comparator coincide, so
the stable `List.insertionSort` with the preorder `comparator ≤ 0` is an
exact model. -/
def sortFiles (tr : String → String → Int) (files : List PriceListFile)
    (o : SortOption) : List PriceListFile :=
  files.insertionSort (fun a b => compareFiles tr o a b ≤ 0)

/-- Per-character model of JavaScript `toLowerCase()` (ASCII case mapping;
the records and search terms exercised by the claims are Latin-script). -/
def jsToLower (s : String) : String := ⟨s.toList.map Char.toLower⟩

/-- `haystack.includes(needle)`: substring containment. -/
def jsIncludes (haystack needle : String) : Bool :=
  decide (needle.toList <:+: haystack.toList)

/-- The search predicate inside `filteredAndSortedFiles` (lines 134-137):
`file.name.toLowerCase().includes(searchTerm.toLowerCase())`. -/
def matchesSearch (searchTerm : String) (file : PriceListFile) : Bool :=
  jsIncludes (jsToLower file.name) (jsToLower searchTerm)

/-- `filteredAndSortedFiles` (lines 133-139): filter by the search term,
then sort. -/
def filteredAndSortedFiles (tr : String → String → Int)
    (files : List PriceListFile) (searchTerm : String) (o : SortOption) :
    List PriceListFile :=
  sortFiles tr (files.filter (matchesSearch searchTerm)) o

/-! ## Helper lemmas -/

open scoped List

theorem count_filter_eq {α : Type _} [DecidableEq α] (p : α → Bool) (l : List α)
    (a : α) : (l.filter p).count a = if p a then l.count a else 0 := by
  by_cases h : p a
  · simp [List.count_filter h, h]
  · have h' : p a = false := by simpa using h
    simp only [h', Bool.false_eq_true, if_false]
    rw [List.count_eq_zero]
    intro hmem
    have hpa := (List.mem_filter.mp hmem).2
    rw [h'] at hpa
    exact Bool.false_ne_true hpa

theorem logFloorAux_le (fuel : Nat) :
    ∀ (n k : Nat), n < 1024 ^ (k + 1) → logFloorAux fuel n ≤ k := by
  induction fuel with
  | zero => intro n k _; simp [logFloorAux]
  | succ fuel ih =>
    intro n k h
    simp only [logFloorAux]
    split
    · exact Nat.zero_le k
    · rename_i hn
      cases k with
      | zero => norm_num at h; omega
      | succ k =>
        have hdiv : n / 1024 < 1024 ^ (k + 1) := by
          rw [Nat.div_lt_iff_lt_mul (by norm_num)]
          calc n < 1024 ^ (k + 1 + 1) := h
            _ = 1024 ^ (k + 1) * 1024 := by rw [pow_succ]
        have := ih (n / 1024) k hdiv
        omega

/-! ## Claims -/

/-- C2: the listing operation is claimed to request the children of the
given folder — the static root when the identifier is empty or absent, the
given folder after a descend.  The code's `getFilesFromFolder` takes no
folder parameter and always interpolates the constant `FOLDER_ID` into the
query, so a descend into the subfolder `"sub123"` still fetches the root's
children, while the spec-modelled contract queries `"sub123"`. -/
theorem getFilesFromFolder_ignores_folder_argument :
    loadFiles_queriedParent (some "sub123") = FOLDER_ID ∧
    FOLDER_ID ≠ "sub123" ∧
    listFolder_spec_queriedParent (some "sub123") = "sub123" ∧
    loadFiles_queriedParent none = listFolder_spec_queriedParent none :=
  ⟨rfl, by decide, rfl, rfl⟩

/-- C3 counterexample: the claim states `formatSize(1024) = "1.00 KB"`,
but the source pipes `toFixed(2)` through `parseFloat` and number-to-string
printing, which strips the trailing zeros: the code renders `"1 KB"`. -/
theorem formatFileSize_1024_strips_decimals :
    formatFileSize 1024 = "1 KB" ∧ ("1 KB" : String) ≠ "1.00 KB" :=
  ⟨rfl, by decide⟩

/-- C3 amended: the size formatter renders a byte count as the base-1024
scaled value rounded to at most two decimal places, with trailing zeros
stripped by `parseFloat`, and a unit from {Bytes, KB, MB, GB} (for counts
below 1024⁴); in particular `formatSize(0) = "0 Bytes"`,
`formatSize(1024) = "1 KB"`, `formatSize(1536) = "1.5 KB"` and
`formatSize(1048576) = "1 MB"`. -/
theorem formatFileSize_scaled_trimmed_with_unit :
    (∀ b : Nat, b ≠ 0 → b < 1024 ^ 4 →
      sizes.getD (logFloor1024 b) "undefined" ∈ sizes) ∧
    formatFileSize 0 = "0 Bytes" ∧
    formatFileSize 1024 = "1 KB" ∧
    formatFileSize 1536 = "1.5 KB" ∧
    formatFileSize 1048576 = "1 MB" := by
  refine ⟨?_, rfl, rfl, rfl, rfl⟩
  intro b _ hlt
  have h3 : logFloor1024 b ≤ 3 := logFloorAux_le b b 3 hlt
  have : logFloor1024 b = 0 ∨ logFloor1024 b = 1 ∨
      logFloor1024 b = 2 ∨ logFloor1024 b = 3 := by omega
  rcases this with h | h | h | h <;> rw [h] <;> decide

/-- C3 witness: the general unit conjunct applied at 1536 bytes. -/
theorem formatFileSize_unit_at_1536 :
    sizes.getD (logFloor1024 1536) "undefined" ∈ sizes :=
  formatFileSize_scaled_trimmed_with_unit.1 1536 (by decide) (by decide)

/-- C9: the listing result is exactly the returned records whose MIME
classifier is in the allowed kind set (the supported document types and the
folder marker), in their original order; anything else is dropped. -/
theorem getFilesFromFolder_keeps_exactly_supported :
    ∀ responseFiles : List DriveFile,
      getFilesFromFolder_result responseFiles <+ responseFiles ∧
      (∀ f, f ∈ getFilesFromFolder_result responseFiles ↔
        f ∈ responseFiles ∧ isSupportedFile f = true) ∧
      (∀ f, (getFilesFromFolder_result responseFiles).count f =
        if isSupportedFile f then responseFiles.count f else 0) :=
  fun l => ⟨List.filter_sublist l, fun _ => List.mem_filter,
    fun f => count_filter_eq _ _ f⟩

/-- C10: normalization assigns every record — folders included — the
provider's forced-download URL built from the record's identifier; the
field is never absent. -/
theorem processFile_download_url_always_assigned :
    ∀ (parseDate : String → Int) (raw : DriveFile),
      (processFile parseDate raw).downloadUrl =
        "https://drive.google.com/uc?export=download&id=" ++ raw.id ∧
      (processFile parseDate raw).downloadUrl = getFileDownloadUrl raw.id :=
  fun _ _ => ⟨rfl, rfl⟩

/-- C7: normalization is total — every branch of the `processedFiles` map
yields a `PriceListFile`, so no record can abort the batch (the batch
keeps its length).  A folder with absent size renders the fixed `"-"`
placeholder; a non-folder with absent size renders the `"Bilinmiyor"`
("unknown") sentinel; a present but non-numeric size degrades through
`parseInt`'s NaN to the fixed string `"NaN undefined"` instead of
failing. -/
theorem processFile_total_and_size_sentinels :
    ∀ (parseDate : String → Int) (raw : DriveFile),
      (raw.size = none → raw.mimeType = "application/vnd.google-apps.folder" →
        (processFile parseDate raw).size = "-") ∧
      (raw.size = none → raw.mimeType ≠ "application/vnd.google-apps.folder" →
        (processFile parseDate raw).size = "Bilinmiyor") ∧
      (∀ s, raw.size = some s → s ≠ "" → parseIntJS s = none →
        (processFile parseDate raw).size = "NaN undefined") ∧
      (∀ driveFiles : List DriveFile,
        (processFiles parseDate driveFiles).length = driveFiles.length) := by
  intro pd raw
  refine ⟨?_, ?_, ?_, fun l => List.length_map _ _⟩
  · intro h hm
    simp [processFile, jsTruthy, h, hm]
  · intro h hm
    simp [processFile, jsTruthy, h, hm]
  · intro s hs hne hparse
    simp [processFile, jsTruthy, hs, hne, formatFileSizeJS, hparse]

/-- C7 witness: a PDF record with absent size normalizes to the
`"Bilinmiyor"` sentinel. -/
theorem processFile_absent_size_pdf_witness :
    (processFile (fun _ => 0)
      ⟨"f1", "doc.pdf", "application/pdf", none, "t", "v", "c", none⟩).size =
      "Bilinmiyor" :=
  (processFile_total_and_size_sentinels (fun _ => 0) _).2.1 rfl (by decide)

/-- C5 counterexample: the claim says an out-of-range index that is not -1
is a failure-free no-op.  At breadcrumb trail `[{id := "a"}]` and index 5
the source evaluates `breadcrumbs[5].id`, a `TypeError` on `undefined`
(modelled as `none`): the operation fails rather than returning the
unchanged state. -/
theorem navigateToBreadcrumb_out_of_range_not_noop :
    navigateToBreadcrumb ⟨"a", [⟨"a", "A"⟩]⟩ 5 = none ∧
    navigateToBreadcrumb ⟨"a", [⟨"a", "A"⟩]⟩ 5 ≠
      some ⟨"a", [⟨"a", "A"⟩]⟩ := by
  constructor
  · rfl
  · intro h
    exact Option.noConfusion h

/-- C5 amended: for every index that is neither -1 nor in
`[0, breadcrumbs.length)`, `navigateToBreadcrumb` throws (the `.id` read
of a missing breadcrumb record) *before* either state setter runs, so it
fails without modifying the current folder identifier or the breadcrumb
sequence — the sequence is never corrupted, but the operation is not a
silent no-op. -/
theorem navigateToBreadcrumb_out_of_range_throws_before_write :
    ∀ (s : NavState) (index : Int), index ≠ -1 →
      (index < 0 ∨ (s.breadcrumbs.length : Int) ≤ index) →
      navigateToBreadcrumb s index = none := by
  intro s index h1 h2
  unfold navigateToBreadcrumb
  rw [if_neg h1]
  by_cases h0 : 0 ≤ index
  · have hlen : s.breadcrumbs.length ≤ index.toNat := by omega
    rw [if_pos h0, List.getElem?_eq_none hlen]
  · rw [if_neg h0]

/-- C5 witness: the amended theorem at the empty trail and index 7. -/
theorem navigateToBreadcrumb_out_of_range_witness :
    navigateToBreadcrumb ⟨"b", []⟩ 7 = none :=
  navigateToBreadcrumb_out_of_range_throws_before_write ⟨"b", []⟩ 7
    (by decide) (Or.inr (by decide))

/-- C8: an entry appears in the projected list iff it is an input entry
whose lower-cased display name contains the lower-cased search term as a
substring; the empty search term matches every entry, and searching
`"INVOICE"` matches the name `"invoice_2024.pdf"`. -/
theorem filteredAndSortedFiles_membership :
    ∀ (tr : String → String → Int) (files : List PriceListFile)
      (searchTerm : String) (o : SortOption) (f : PriceListFile),
      (f ∈ filteredAndSortedFiles tr files searchTerm o ↔
        f ∈ files ∧ jsIncludes (jsToLower f.name) (jsToLower searchTerm) = true) ∧
      matchesSearch "" f = true ∧
      jsIncludes (jsToLower "invoice_2024.pdf") (jsToLower "INVOICE") = true := by
  intro tr files term o f
  refine ⟨?_, ?_, by decide⟩
  · unfold filteredAndSortedFiles sortFiles
    rw [List.mem_insertionSort, List.mem_filter]
    unfold matchesSearch
    exact Iff.rfl
  · simp only [matchesSearch, jsIncludes, jsToLower, decide_eq_true_eq]
    exact List.nil_infix

/-- Totality of the sort comparator's induced preorder, given the
collation-consistency property every ECMA-402 comparison function has. -/
theorem compareFiles_le_total (tr : String → String → Int)
    (htotal : ∀ s t, tr s t ≤ 0 ∨ tr t s ≤ 0) (o : SortOption) :
    ∀ a b : PriceListFile,
      compareFiles tr o a b ≤ 0 ∨ compareFiles tr o b a ≤ 0 := by
  intro a b
  rcases o <;> cases hf : a.isFolder <;> cases hg : b.isFolder <;>
    simp [compareFiles, hf, hg] <;>
    first
      | omega
      | exact htotal _ _

/-- Transitivity of the sort comparator's induced preorder. -/
theorem compareFiles_le_trans (tr : String → String → Int)
    (htrans : ∀ s t u, tr s t ≤ 0 → tr t u ≤ 0 → tr s u ≤ 0) (o : SortOption) :
    ∀ a b c : PriceListFile, compareFiles tr o a b ≤ 0 →
      compareFiles tr o b c ≤ 0 → compareFiles tr o a c ≤ 0 := by
  intro a b c hab hbc
  rcases o <;> cases hf : a.isFolder <;> cases hg : b.isFolder <;>
    cases hh : c.isFolder <;>
    simp [compareFiles, hf, hg, hh] at hab hbc ⊢ <;>
    first
      | omega
      | exact htrans _ _ _ hab hbc
      | exact htrans _ _ _ hbc hab

/-- The comparator never lets a non-folder precede a folder. -/
theorem compareFiles_le_folder_first (tr : String → String → Int)
    (o : SortOption) (a b : PriceListFile)
    (h : compareFiles tr o a b ≤ 0) (hb : b.isFolder = true) :
    a.isFolder = true := by
  by_contra ha
  have ha' : a.isFolder = false := by simpa using ha
  simp [compareFiles, ha', hb] at h

/-- C1: for every entry list, search term and sort key, the projected list
places every folder-kind entry before every non-folder entry — whenever a
non-folder precedes some entry in the output, that entry is a non-folder
too.  `tr` ranges over all consistent collations, covering the external
Turkish `localeCompare`. -/
theorem filteredAndSortedFiles_folders_first :
    ∀ (tr : String → String → Int),
      (∀ s t, tr s t ≤ 0 ∨ tr t s ≤ 0) →
      (∀ s t u, tr s t ≤ 0 → tr t u ≤ 0 → tr s u ≤ 0) →
      ∀ (files : List PriceListFile) (searchTerm : String) (o : SortOption),
        (filteredAndSortedFiles tr files searchTerm o).Pairwise
          (fun a b => b.isFolder = true → a.isFolder = true) := by
  intro tr htotal htrans files term o
  have hs : List.Sorted (fun a b => compareFiles tr o a b ≤ 0)
      (filteredAndSortedFiles tr files term o) := by
    haveI : IsTotal PriceListFile (fun a b => compareFiles tr o a b ≤ 0) :=
      ⟨compareFiles_le_total tr htotal o⟩
    haveI : IsTrans PriceListFile (fun a b => compareFiles tr o a b ≤ 0) :=
      ⟨fun a b c => compareFiles_le_trans tr htrans o a b c⟩
    exact List.sorted_insertionSort _ _
  exact hs.imp (fun hab hb => compareFiles_le_folder_first tr o _ _ hab hb)

/-- C1 witness: a two-entry mix (one document, one folder) under the
trivial collation and a name sort. -/
theorem filteredAndSortedFiles_folders_first_witness :
    (filteredAndSortedFiles (fun _ _ => 0)
      [⟨"d1", "doc", .pdf, "-", 5, "", "", false⟩,
       ⟨"f1", "dir", .folder, "-", 3, "", "", true⟩] "" .nameAsc).Pairwise
      (fun a b => b.isFolder = true → a.isFolder = true) :=
  filteredAndSortedFiles_folders_first (fun _ _ => 0)
    (fun _ _ => Or.inl (le_refl 0)) (fun _ _ _ _ _ => le_refl 0) _ _ _

/-- C4 counterexample: two non-folder entries with the same display name
`"A"` but different modification instants, under the date-ascending key
and an empty search term, come out in the opposite of their input order:
equal name and equal folder-status alone do not preserve encounter order
under a date sort. -/
theorem filteredAndSortedFiles_reorders_equal_names_on_date_sort :
    filteredAndSortedFiles (fun _ _ => 0)
      [⟨"x", "A", .pdf, "-", 1, "", "", false⟩,
       ⟨"y", "A", .pdf, "-", 0, "", "", false⟩] "" .dateAsc =
      [⟨"y", "A", .pdf, "-", 0, "", "", false⟩,
       ⟨"x", "A", .pdf, "-", 1, "", "", false⟩] ∧
    ¬ ([⟨"x", "A", .pdf, "-", 1, "", "", false⟩,
        ⟨"y", "A", .pdf, "-", 0, "", "", false⟩] <+
       filteredAndSortedFiles (fun _ _ => 0)
        [⟨"x", "A", .pdf, "-", 1, "", "", false⟩,
         ⟨"y", "A", .pdf, "-", 0, "", "", false⟩] "" .dateAsc) := by
  constructor
  · rfl
  · decide

/-- C4 amended: two entries with equal display name, equal folder-status
*and equal last-modified instant* — i.e. equal sort keys under every sort
option — keep their input order in the projected output, for every sort
key and every reflexive collation (`localeCompare` returns 0 on equal
strings): the sort is stable with respect to equal keys. -/
theorem filteredAndSortedFiles_stable_on_equal_keys :
    ∀ (tr : String → String → Int), (∀ s, tr s s = 0) →
    ∀ (files : List PriceListFile) (searchTerm : String) (o : SortOption)
      (x y : PriceListFile),
      x.name = y.name → x.isFolder = y.isFolder →
      x.modifiedTime = y.modifiedTime →
      [x, y] <+ files →
      matchesSearch searchTerm x = true → matchesSearch searchTerm y = true →
      [x, y] <+ filteredAndSortedFiles tr files searchTerm o := by
  intro tr hrefl files term o x y hname hfold htime hsub hx hy
  have hfilter : [x, y] <+ files.filter (matchesSearch term) := by
    have h := List.Sublist.filter (matchesSearch term) hsub
    rwa [show [x, y].filter (matchesSearch term) = [x, y] by
      simp [List.filter, hx, hy]] at h
  have hxy : compareFiles tr o x y ≤ 0 := by
    cases hf : x.isFolder <;> rcases o <;>
      simp [compareFiles, hf, hfold ▸ hf, hname, htime, hrefl]
  exact List.pair_sublist_insertionSort hxy hfilter

/-- C4 witness: two distinct entries sharing name, folder-status and
instant stay in input order under the date-descending key. -/
theorem filteredAndSortedFiles_stable_witness :
    [⟨"x", "A", .pdf, "-", 4, "", "", false⟩,
     ⟨"y", "A", .pdf, "-", 4, "", "", false⟩] <+
      filteredAndSortedFiles (fun _ _ => 0)
        [⟨"x", "A", .pdf, "-", 4, "", "", false⟩,
         ⟨"y", "A", .pdf, "-", 4, "", "", false⟩] "" .dateDesc :=
  filteredAndSortedFiles_stable_on_equal_keys (fun _ _ => 0) (fun _ => rfl)
    _ "" .dateDesc _ _ rfl rfl rfl (List.Sublist.refl _) (by decide) (by decide)

/-- C6 counterexample: the stated invariant alone is not preserved by an
in-range `navigateToBreadcrumb`.  The state with trail
`[{id := ""}, {id := "x"}]` and current folder `"x"` satisfies the stated
invariant (non-empty trail, non-root current folder, last id matches), yet
jumping to index 0 lands on a crumb whose recorded id is the root sentinel,
breaking the `breadcrumbs = [] ↔ current = root` half. -/
theorem navigateToBreadcrumb_breaks_raw_invariant :
    NavInv ⟨"x", [⟨"", "A"⟩, ⟨"x", "B"⟩]⟩ ∧
    navigateToBreadcrumb ⟨"x", [⟨"", "A"⟩, ⟨"x", "B"⟩]⟩ 0 =
      some ⟨"", [⟨"", "A"⟩]⟩ ∧
    ¬ NavInv ⟨"", [⟨"", "A"⟩]⟩ := by
  refine ⟨⟨?_, ?_⟩, rfl, ?_⟩
  · constructor <;> intro h <;> simp_all
  · intro b hb
    have hlast : ([⟨"", "A"⟩, ⟨"x", "B"⟩] : List BreadcrumbItem).getLast? =
        some ⟨"x", "B"⟩ := rfl
    rw [hlast] at hb
    simp only [Option.mem_def, Option.some.injEq] at hb
    rw [← hb]
  · rintro ⟨h1, -⟩
    have := h1.mpr rfl
    simp at this

/-- The strengthened invariant holds in the initial root state. -/
theorem navInvStrong_init : NavInvStrong ⟨"", []⟩ := by
  refine ⟨⟨by simp, ?_⟩, by simp⟩
  intro b hb
  simp [List.getLast?] at hb

/-- Every reachable navigation state satisfies the strengthened invariant
(`NavInv` plus: no breadcrumb records an empty id). -/
theorem reachableNav_navInvStrong :
    ∀ s : NavState, ReachableNav s → NavInvStrong s := by
  intro s h
  induction h with
  | init => exact navInvStrong_init
  | descend s id name _ hid ih =>
    unfold navigateToFolder
    rw [if_neg hid]
    refine ⟨⟨?_, ?_⟩, ?_⟩
    · simp only []
      constructor <;> intro h
      · exact absurd h (by simp)
      · exact absurd h hid
    · intro b hb
      simp only [List.getLast?_concat, Option.mem_def, Option.some.injEq] at hb
      rw [← hb]
    · intro b hb
      rcases List.mem_append.mp hb with h | h
      · exact ih.2 b h
      · simp only [List.mem_singleton] at h
        rw [h]
        exact hid
  | toRoot s name _ _ =>
    unfold navigateToFolder
    rw [if_pos rfl]
    exact navInvStrong_init
  | jump s i t _ hjump ih =>
    by_cases hi : i = -1
    · rw [navigateToBreadcrumb, if_pos hi] at hjump
      obtain rfl : (⟨"", []⟩ : NavState) = t := Option.some.inj hjump
      exact navInvStrong_init
    · by_cases h0 : 0 ≤ i
      · cases hget : s.breadcrumbs[i.toNat]? with
        | none =>
          rw [navigateToBreadcrumb, if_neg hi, if_pos h0, hget] at hjump
          exact absurd hjump (by simp)
        | some target =>
          rw [navigateToBreadcrumb, if_neg hi, if_pos h0, hget] at hjump
          obtain rfl :
              (⟨target.id, s.breadcrumbs.take (i.toNat + 1)⟩ : NavState) = t :=
            Option.some.inj hjump
          obtain ⟨hlt, -⟩ := List.getElem?_eq_some_iff.mp hget
          have htmem : target ∈ s.breadcrumbs := List.getElem?_mem hget
          have htid : target.id ≠ "" := ih.2 target htmem
          have htake : s.breadcrumbs.take (i.toNat + 1) =
              s.breadcrumbs.take i.toNat ++ [target] := by
            rw [List.take_succ, hget]
            rfl
          refine ⟨⟨?_, ?_⟩, ?_⟩
          · constructor <;> intro h
            · rw [htake] at h
              exact absurd h (by simp)
            · exact absurd h htid
          · intro b hb
            rw [htake] at hb
            simp only [List.getLast?_concat, Option.mem_def,
              Option.some.injEq] at hb
            rw [hb]
          · intro b hb
            exact ih.2 b (List.take_subset _ _ hb)
      · rw [navigateToBreadcrumb, if_neg hi, if_neg h0] at hjump
        exact absurd hjump (by simp)

/-- C6 amended: the stated invariant — trail empty iff the current folder
is the root sentinel, and a non-empty trail ends in the current folder's
id — holds in every state the navigation transitions can reach from the
initial root state; the transitions preserve it together with the
strengthening (forced by the counterexample) that no breadcrumb records an
empty folder identifier. -/
theorem reachableNav_satisfies_navInv :
    ∀ s : NavState, ReachableNav s → NavInv s :=
  fun s h => (reachableNav_navInvStrong s h).1

/-- C6 witness: the state reached by descending into folder `"f1"` from
the root satisfies the invariant. -/
theorem reachableNav_navInv_witness :
    NavInv (navigateToFolder ⟨"", []⟩ "f1" "Folder One") :=
  reachableNav_satisfies_navInv _
    (ReachableNav.descend _ "f1" "Folder One" ReachableNav.init (by decide))
